import Mathlib

/-!
Verification of `preprocess.py` from the onshape-laser-cutting repository.

Paths are modelled as lists of characters (`Str`).  The filesystem and
process effects of the program are modelled as explicit action traces.
All definitions are translated from `src/preprocess.py` and the posixpath
routines (`os.path.basename`, `os.path.splitext`, `os.path.dirname`,
`os.path.join`) it calls.
-/

namespace Preprocess

abbrev Str := List Char

/-- Model of `os.path.basename` on POSIX: the part of the path after the last `/`
(the whole path when it holds no `/`). -/
def basename (p : Str) : Str :=
  (p.reverse.takeWhile (fun c => c ≠ '/')).reverse

/-- Model of `os.path.splitext` restricted to separator-free strings, which is how
`preprocess.py` always calls it (on `os.path.basename(...)`).  CPython splits
at the last dot, except that a name whose characters before that dot are all
dots (e.g. `.bashrc`, `...`) has no extension. -/
def splitext (b : Str) : Str × Str :=
  let tail := b.reverse.takeWhile (fun c => c ≠ '.')
  if tail.length = b.length then (b, [])
  else
    let root := b.take (b.length - tail.length - 1)
    if root.all (fun c => c = '.') then (b, [])
    else (root, b.drop (b.length - tail.length - 1))

/-- Translation of `get_file_ext` from `preprocess.py`:
`os.path.splitext(os.path.basename(file_path))[1]`. -/
def get_file_ext (file_path : Str) : Str :=
  (splitext (basename file_path)).2

/-- Translation of `get_svg_name` from `preprocess.py`:
`os.path.splitext(os.path.basename(dxf_path))[0] + '.svg'`. -/
def get_svg_name (dxf_path : Str) : Str :=
  (splitext (basename dxf_path)).1 ++ ".svg".data

/-- Model of `os.path.dirname` on POSIX: everything up to and including the last `/`,
with trailing slashes stripped unless the head is all slashes. -/
def dirname (p : Str) : Str :=
  let tail := p.reverse.takeWhile (fun c => c ≠ '/')
  let head := p.take (p.length - tail.length)
  if head ≠ [] ∧ ¬ head.all (fun c => c = '/') then
    (head.reverse.dropWhile (fun c => c = '/')).reverse
  else head

/-- Model of `os.path.join` on POSIX, two arguments. -/
def joinPath (a b : Str) : Str :=
  if b.head? = some '/' then b
  else if a = [] ∨ a.getLast? = some '/' then a ++ b
  else a ++ '/' :: b

/-! ## XML document model and the style rewriter -/

/-- An XML element as lxml presents it: a qualified tag such as
`{http://www.w3.org/2000/svg}path`, an ordered attribute list with unique
keys, and a list of child elements. -/
inductive Element where
  | mk (tag : Str) (attrs : List (Str × Str)) (children : List Element)

def Element.tag : Element → Str
  | .mk t _ _ => t

def Element.attrs : Element → List (Str × Str)
  | .mk _ a _ => a

def Element.children : Element → List Element
  | .mk _ _ cs => cs

/-- The qualified tag the rewriter searches for. -/
def svgPathTag : Str := "\x7bhttp://www.w3.org/2000/svg\x7dpath".data

/-- The qualified tag of the root element of an SVG document. -/
def svgSvgTag : Str := "\x7bhttp://www.w3.org/2000/svg\x7dsvg".data

/-- The exact style signature matched by
`.//{http://www.w3.org/2000/svg}path[@style="stroke:#000000;fill:none"]`. -/
def blackStyle : Str := "stroke:#000000;fill:none".data

def styleKey : Str := "style".data

/-- The replacement style string built by `style_strokes`:
`'fill:none;stroke:{};stroke-opacity:1;stroke-width:{};stroke-miterlimit:4;stroke-dasharray:none'.format(stroke_color, stroke_width)`. -/
def newStyle (stroke_color stroke_width : Str) : Str :=
  "fill:none;stroke:".data ++ stroke_color
    ++ ";stroke-opacity:1;stroke-width:".data ++ stroke_width
    ++ ";stroke-miterlimit:4;stroke-dasharray:none".data

/-- Model of `element.set(key, value)` in lxml: replace the value of an existing
attribute in place, or append the attribute when the key is absent. -/
def setAttr (k v : Str) : List (Str × Str) → List (Str × Str)
  | [] => [(k, v)]
  | (k', v') :: rest =>
    if k' = k then (k, v) :: rest else (k', v') :: setAttr k v rest

/-- Whether an element is matched by the `findall` query in `style_strokes`:
an SVG-namespace `path` element whose `style` attribute equals `blackStyle`
exactly. -/
def matchesBlack (tag : Str) (attrs : List (Str × Str)) : Bool :=
  tag = svgPathTag ∧ attrs.lookup styleKey = some blackStyle

/-- The local rewrite `style_strokes` performs on one matched element's data:
matched elements get `newStyle`, all others are untouched. -/
def restyleNode (c w tag : Str) (attrs : List (Str × Str)) : List (Str × Str) :=
  if matchesBlack tag attrs then setAttr styleKey (newStyle c w) attrs else attrs

mutual
/-- Apply `restyleNode` to an element and all its descendants. -/
def restyleAll (c w : Str) : Element → Element
  | .mk t a cs => .mk t (restyleNode c w t a) (restyleList c w cs)

def restyleList (c w : Str) : List Element → List Element
  | [] => []
  | e :: es => restyleAll c w e :: restyleList c w es
end

/-- The pure content of `style_strokes` on a parsed document: the `findall`
query `.//{svg}path[@style=...]` selects descendants of the root (the root
element itself is never matched by `.//`), and each selected element's
`style` attribute is replaced. -/
def styleStrokesDoc (c w : Str) : Element → Element
  | .mk t a cs => .mk t a (restyleList c w cs)

mutual
/-- Preorder list of the (tag, attrs) data of every element of a tree,
the root included. -/
def elemsData : Element → List (Str × List (Str × Str))
  | .mk t a cs => (t, a) :: elemsDataList cs

/-- Preorder `elemsData` over a forest. -/
def elemsDataList : List Element → List (Str × List (Str × Str))
  | [] => []
  | e :: es => elemsData e ++ elemsDataList es
end

/-! ## Effect-trace model of the program

The filesystem state visible to `etree.parse` is an oracle
`fs : Str → Option Element` giving the parsed document at a path (`none`
models a missing, empty or malformed file, on which `etree.parse` raises).
Side effects are recorded as an explicit list of actions; an uncaught
exception is a `some err` second component, with the actions already
performed kept in the trace. -/

inductive Action where
  | subproc (cmd : List Str)
  | writeFile (path : Str) (doc : Element)
  | notice (msg : Str)

/-- The two exception kinds reaching `main`: `FileTypeError` (with its
message) and the parse error `etree.parse` raises. -/
inductive Err where
  | fileType (msg : Str)
  | parse (path : Str)

def Err.isFileType : Err → Bool
  | .fileType _ => true
  | .parse _ => false

/-- The `FileTypeError` message:
`'Unsupported file extension {} on input file {}!'.format(ext, path)`. -/
def fileTypeMsg (ext p : Str) : Str :=
  "Unsupported file extension ".data ++ ext ++ " on input file ".data
    ++ p ++ "!".data

/-- Translation of `convert` from `preprocess.py`:
`subprocess.run(['inkscape', '-l', svg_path, dxf_path])`. -/
def convert (dxf_path svg_path : Str) : List Action :=
  [Action.subproc ["inkscape".data, "-l".data, svg_path, dxf_path]]

/-- Default `stroke_color` of `style_strokes`. -/
def defaultColor : Str := "#ff0000".data

/-- Default `stroke_width` of `style_strokes`, as Python formats the float
`0.07559055` into the style string. -/
def defaultWidth : Str := "0.07559055".data

/-- Translation of `style_strokes` from `preprocess.py`: parses the file at `svg_path`,
rewrites the matched descendants, and returns the modified tree.  It
performs no write action; a missing or malformed file raises a parse
error. -/
def style_strokes (fs : Str → Option Element) (svg_path : Str)
    (stroke_color stroke_width : Str) : List Action × Except Err Element :=
  match fs svg_path with
  | none => ([], .error (.parse svg_path))
  | some doc => ([], .ok (styleStrokesDoc stroke_color stroke_width doc))

/-- The output-path resolution of `preprocess` (lines 92–97): default to the
input's directory and derived name, treat an extensionless `svg_path` as a
parent directory, and use any other `svg_path` verbatim. -/
def resolve_svg_path (dxf_path : Str) : Option Str → Str
  | none => joinPath (dirname dxf_path) (get_svg_name dxf_path)
  | some s => if get_file_ext s = [] then joinPath s (get_svg_name dxf_path)
              else s

/-- Translation of `preprocess` from `preprocess.py`: validate the `.dxf` extension (raising
`FileTypeError` before any action), resolve the output path, run the
converter, parse and restyle the result, write it back, with progress
notices. -/
def preprocess (fs : Str → Option Element) (dxf_path : Str)
    (svg_path : Option Str) : List Action × Option Err :=
  let dxf_ext := get_file_ext dxf_path
  if dxf_ext ≠ ".dxf".data then
    ([], some (.fileType (fileTypeMsg dxf_ext dxf_path)))
  else
    let svg := resolve_svg_path dxf_path svg_path
    let conv := convert dxf_path svg
      ++ [Action.notice ("Converted ".data ++ dxf_path ++ " to ".data
            ++ svg ++ ".".data)]
    match style_strokes fs svg defaultColor defaultWidth with
    | (a, .error e) => (conv ++ a, some e)
    | (a, .ok xml) =>
      (conv ++ a ++ [Action.writeFile svg xml,
        Action.notice ("Set stroke styles on ".data ++ svg ++ ".".data)],
       none)

/-- Translation of the `for filename in os.listdir(input_path)` loop of `main`:
`preprocess` each entry at its joined path, catching only `FileTypeError`
(printing a skip notice and continuing); any other exception aborts the
loop with the actions performed so far. -/
def batchLoop (fs : Str → Option Element) (input_path : Str)
    (output_path : Option Str) : List Str → List Action × Option Err
  | [] => ([], none)
  | name :: rest =>
    match preprocess fs (joinPath input_path name) output_path with
    | (a, some (.fileType _)) =>
      let (a2, e2) := batchLoop fs input_path output_path rest
      (a ++ [Action.notice ("Skipped ".data ++ name)] ++ a2, e2)
    | (a, some e) => (a, some e)
    | (a, none) =>
      let (a2, e2) := batchLoop fs input_path output_path rest
      (a ++ a2, e2)

/-- Translation of `main` from `preprocess.py`: a path with a non-empty extension is a
single file handed to `preprocess`; otherwise the path is a directory whose
listing (`os.listdir`, passed in as `listing`) is iterated by
`batchLoop`. -/
def main (fs : Str → Option Element) (listing : List Str)
    (input_path : Str) (output_path : Option Str) :
    List Action × Option Err :=
  if get_file_ext input_path ≠ [] then preprocess fs input_path output_path
  else batchLoop fs input_path output_path listing

/-- A sample SVG document used by concrete witnesses: one matched black
path and one non-matching red path under an `svg` root. -/
def sampleDoc : Element :=
  .mk svgSvgTag []
    [.mk svgPathTag [(styleKey, blackStyle)] [],
     .mk svgPathTag [(styleKey, "stroke:#ff0000;fill:none".data)] []]

/-- A `preprocess` outcome the batch loop survives: success, or a
`FileTypeError` (which `main` catches and skips). -/
def benignResult (r : List Action × Option Err) : Prop :=
  r.2 = none ∨ ∃ m, r.2 = some (Err.fileType m)

/-- The actions one directory entry contributes to the batch: its
`preprocess` actions, plus the skip notice when it hit a `FileTypeError`. -/
def entryTrace (fs : Str → Option Element) (input_path : Str)
    (output_path : Option Str) (name : Str) : List Action :=
  match preprocess fs (joinPath input_path name) output_path with
  | (a, some (.fileType _)) => a ++ [Action.notice ("Skipped ".data ++ name)]
  | (a, _) => a

/-- The concatenated per-entry traces of a batch run. -/
def batchTrace (fs : Str → Option Element) (input_path : Str)
    (output_path : Option Str) : List Str → List Action
  | [] => []
  | n :: rest =>
    entryTrace fs input_path output_path n
      ++ batchTrace fs input_path output_path rest

/-! ## Helper lemmas about the path utilities -/

theorem takeWhile_append_all {p : Char → Bool} (l1 : Str) (x : Char)
    (l2 : Str) (h1 : ∀ c ∈ l1, p c) (h2 : p x = false) :
    (l1 ++ x :: l2).takeWhile p = l1 := by
  induction l1 with
  | nil => simp [List.takeWhile_cons, h2]
  | cons a as ih =>
    have ha : p a = true := h1 a (by simp)
    simp only [List.cons_append, List.takeWhile_cons, ha, if_true]
    rw [ih (fun c hc => h1 c (by simp [hc]))]

theorem splitext_no_dot (b : Str) (h : '.' ∉ b) : splitext b = (b, []) := by
  have h1 : b.reverse.takeWhile (fun c => decide (c ≠ '.')) = b.reverse := by
    rw [List.takeWhile_eq_self_iff]
    intro c hc
    simp only [decide_eq_true_eq]
    intro hcc
    exact h (by simpa [hcc] using List.mem_reverse.mp hc)
  unfold splitext
  dsimp only
  rw [h1, List.length_reverse, if_pos rfl]

theorem splitext_last_dot (r s : Str) (hs : '.' ∉ s) :
    splitext (r ++ '.' :: s)
      = (if r.all (fun c => c = '.') then (r ++ '.' :: s, [])
         else (r, '.' :: s)) := by
  have htail : (r ++ '.' :: s).reverse.takeWhile (fun c => decide (c ≠ '.'))
      = s.reverse := by
    rw [List.reverse_append, List.reverse_cons, List.append_assoc,
      List.singleton_append]
    exact takeWhile_append_all s.reverse '.' r.reverse
      (fun c hc => by
        simp only [decide_eq_true_eq]
        intro hcc
        exact hs (by simpa [hcc] using List.mem_reverse.mp hc))
      (by simp)
  have hlen : (r ++ '.' :: s).length = r.length + 1 + s.length := by
    simp [List.length_append]
    omega
  have hne : ¬ ((r ++ '.' :: s).reverse.takeWhile
      (fun c => decide (c ≠ '.'))).length = (r ++ '.' :: s).length := by
    rw [htail]
    simp only [List.length_reverse, hlen]
    omega
  have hidx : (r ++ '.' :: s).length
      - ((r ++ '.' :: s).reverse.takeWhile
          (fun c => decide (c ≠ '.'))).length - 1 = r.length := by
    rw [htail]
    simp only [List.length_reverse, hlen]
    omega
  have htake : (r ++ '.' :: s).take r.length = r := by
    simp [List.take_left]
  have hdrop : (r ++ '.' :: s).drop r.length = '.' :: s := by
    simp [List.drop_left]
  unfold splitext
  dsimp only
  rw [if_neg hne, hidx, htake, hdrop]

theorem splitext_append (b : Str) : (splitext b).1 ++ (splitext b).2 = b := by
  unfold splitext
  dsimp only
  split
  · simp
  · split
    · simp
    · simp [List.take_append_drop]

/-! ## Claims about the path utilities -/

/-- C7 counterexample: the base name of the path `.bashrc` contains a dot, and the
substring from its last dot onward is `.bashrc` itself, yet `get_file_ext`
returns the empty string, refuting the claim as stated. -/
theorem claim_C7_counterexample :
    ('.' ∈ basename ".bashrc".data)
      ∧ basename ".bashrc".data = [] ++ '.' :: "bashrc".data
      ∧ '.' ∉ "bashrc".data
      ∧ get_file_ext ".bashrc".data = []
      ∧ get_file_ext ".bashrc".data ≠ '.' :: "bashrc".data := by decide

/-- C7 (amended): for every path whose base name contains a dot preceded by
some non-dot character, `get_file_ext` returns the substring of the base
name from the last dot onward, including the dot; when the base name has no
dot, or all characters before its last dot are dots, it returns the empty
string. -/
theorem claim_C7 (p : Str) :
    ('.' ∉ basename p → get_file_ext p = [])
    ∧ (∀ r s, basename p = r ++ '.' :: s → '.' ∉ s →
        ((∃ c ∈ r, c ≠ '.') → get_file_ext p = '.' :: s)
        ∧ ((∀ c ∈ r, c = '.') → get_file_ext p = [])) := by
  constructor
  · intro h
    unfold get_file_ext
    rw [splitext_no_dot _ h]
  · intro r s hb hs
    constructor
    · intro hex
      obtain ⟨c, hc, hcne⟩ := hex
      have hall : ¬ (r.all (fun c => c = '.') = true) := by
        simp only [List.all_eq_true, decide_eq_true_eq]
        push_neg
        exact ⟨c, hc, hcne⟩
      unfold get_file_ext
      rw [hb, splitext_last_dot r s hs, if_neg hall]
    · intro hall
      have hall' : r.all (fun c => c = '.') = true := by
        simp only [List.all_eq_true, decide_eq_true_eq]
        exact hall
      unfold get_file_ext
      rw [hb, splitext_last_dot r s hs, if_pos hall']

/-- C7 witness: at `dir/a.b` the amended statement applies with `r = "a"`,
`s = "b"` and yields the extension `.b`. -/
theorem claim_C7_witness :
    get_file_ext "dir/a.b".data = '.' :: "b".data :=
  ((claim_C7 "dir/a.b".data).2 "a".data "b".data (by decide) (by decide)).1
    (by decide)

/-- C8: `get_svg_name` returns the base name of `p` with its file extension
(as computed by `get_file_ext`) replaced by exactly `.svg`; when there is no
extension, `.svg` is appended to the base name. -/
theorem claim_C8 (p : Str) :
    (∃ root, basename p = root ++ get_file_ext p
       ∧ get_svg_name p = root ++ ".svg".data)
    ∧ (get_file_ext p = [] → get_svg_name p = basename p ++ ".svg".data) := by
  refine ⟨⟨(splitext (basename p)).1, ?_, rfl⟩, ?_⟩
  · exact (splitext_append (basename p)).symm
  · intro h
    unfold get_svg_name
    have hr := splitext_append (basename p)
    unfold get_file_ext at h
    rw [h, List.append_nil] at hr
    rw [hr]

/-- C8 witness: at `noext`, which has no extension, the derived name is the
base name with `.svg` appended. -/
theorem claim_C8_witness :
    get_file_ext "noext".data = []
      ∧ get_svg_name "noext".data = basename "noext".data ++ ".svg".data :=
  ⟨by decide, (claim_C8 "noext".data).2 (by decide)⟩

/-! ## Claims about the orchestrator's validation and path resolution -/

/-- C3: a `dxf_path` whose extension is not exactly `.dxf` makes `preprocess`
raise a `FileTypeError` whose message contains the offending extension and
the offending path, with no converter invocation and no file written (the
action trace is empty). -/
theorem claim_C3 (fs : Str → Option Element) (p : Str) (out : Option Str)
    (h : get_file_ext p ≠ ".dxf".data) :
    preprocess fs p out
      = ([], some (Err.fileType (fileTypeMsg (get_file_ext p) p)))
    ∧ (∃ l r, fileTypeMsg (get_file_ext p) p = l ++ get_file_ext p ++ r)
    ∧ (∃ l r, fileTypeMsg (get_file_ext p) p = l ++ p ++ r) := by
  refine ⟨?_, ?_, ?_⟩
  · unfold preprocess
    dsimp only
    rw [if_pos h]
  · exact ⟨"Unsupported file extension ".data,
      " on input file ".data ++ p ++ "!".data, by simp [fileTypeMsg]⟩
  · exact ⟨"Unsupported file extension ".data ++ get_file_ext p
        ++ " on input file ".data, "!".data,
      by simp [fileTypeMsg, List.append_assoc]⟩

/-- C3 witness: the path `notes.txt` has extension `.txt`, so `preprocess` raises the
file-type error with an empty action trace. -/
theorem claim_C3_witness :
    get_file_ext "notes.txt".data ≠ ".dxf".data
    ∧ (preprocess (fun _ => none) "notes.txt".data none
        = ([], some (Err.fileType (fileTypeMsg
            (get_file_ext "notes.txt".data) "notes.txt".data)))
      ∧ (∃ l r, fileTypeMsg (get_file_ext "notes.txt".data) "notes.txt".data
          = l ++ get_file_ext "notes.txt".data ++ r)
      ∧ (∃ l r, fileTypeMsg (get_file_ext "notes.txt".data) "notes.txt".data
          = l ++ "notes.txt".data ++ r)) :=
  ⟨by decide, claim_C3 (fun _ => none) "notes.txt".data none (by decide)⟩

/-- C9: a hidden-file path (base name starting with a dot and holding no
other dot) has empty `get_file_ext`; `preprocess` rejects it with a
file-type error formatted with the empty extension, and `main` takes the
directory branch on it. -/
theorem claim_C9 (p r : Str) (hb : basename p = '.' :: r) (hr : '.' ∉ r) :
    get_file_ext p = []
    ∧ (∀ fs out, preprocess fs p out
        = ([], some (Err.fileType (fileTypeMsg [] p))))
    ∧ (∀ fs listing out, main fs listing p out = batchLoop fs p out listing) := by
  have hext : get_file_ext p = [] := by
    unfold get_file_ext
    rw [hb, show ('.' :: r : Str) = [] ++ '.' :: r from rfl,
      splitext_last_dot [] r hr]
    simp
  refine ⟨hext, ?_, ?_⟩
  · intro fs out
    have hne : get_file_ext p ≠ ".dxf".data := by
      rw [hext]
      decide
    unfold preprocess
    dsimp only
    rw [if_pos hne, hext]
  · intro fs listing out
    unfold main
    rw [if_neg (by rw [hext]; simp)]

/-- C9 witness: the path `.bashrc` gets an empty extension, the file-type rejection,
and the directory branch of `main`. -/
theorem claim_C9_witness :
    basename ".bashrc".data = '.' :: "bashrc".data
    ∧ (get_file_ext ".bashrc".data = []
      ∧ (∀ fs out, preprocess fs ".bashrc".data out
          = ([], some (Err.fileType (fileTypeMsg [] ".bashrc".data))))
      ∧ (∀ fs listing out, main fs listing ".bashrc".data out
          = batchLoop fs ".bashrc".data out listing)) :=
  ⟨by decide, claim_C9 ".bashrc".data "bashrc".data (by decide) (by decide)⟩

/-- C2: for a `.dxf` input, the output path resolves to the input's
directory joined with the derived SVG name when `svg_path` is omitted, to
`svg_path` (as a parent directory) joined with the derived name when
`svg_path` has an empty extension, and to `svg_path` verbatim otherwise;
the resolved path is the one handed to the converter subprocess. -/
theorem claim_C2 (fs : Str → Option Element) (dxf : Str)
    (h : get_file_ext dxf = ".dxf".data) :
    resolve_svg_path dxf none = joinPath (dirname dxf) (get_svg_name dxf)
    ∧ (∀ s, get_file_ext s = [] →
        resolve_svg_path dxf (some s) = joinPath s (get_svg_name dxf))
    ∧ (∀ s, get_file_ext s ≠ [] → resolve_svg_path dxf (some s) = s)
    ∧ (∀ out, (preprocess fs dxf out).1.head?
        = some (Action.subproc ["inkscape".data, "-l".data,
            resolve_svg_path dxf out, dxf])) := by
  refine ⟨rfl, ?_, ?_, ?_⟩
  · intro s h2
    unfold resolve_svg_path
    dsimp only
    rw [if_pos h2]
  · intro s h2
    unfold resolve_svg_path
    dsimp only
    rw [if_neg h2]
  · intro out
    unfold preprocess
    dsimp only
    rw [if_neg (by simp [h])]
    unfold style_strokes
    cases hfs : fs (resolve_svg_path dxf out) with
    | none => simp [convert]
    | some doc => simp [convert]

/-- C2 witness: the path `d/drawing.dxf` resolves the three cases concretely. -/
theorem claim_C2_witness :
    get_file_ext "d/drawing.dxf".data = ".dxf".data
    ∧ (resolve_svg_path "d/drawing.dxf".data none
        = joinPath (dirname "d/drawing.dxf".data)
            (get_svg_name "d/drawing.dxf".data)
      ∧ (∀ s, get_file_ext s = [] →
          resolve_svg_path "d/drawing.dxf".data (some s)
            = joinPath s (get_svg_name "d/drawing.dxf".data))
      ∧ (∀ s, get_file_ext s ≠ [] →
          resolve_svg_path "d/drawing.dxf".data (some s) = s)
      ∧ (∀ out,
          (preprocess (fun _ => none) "d/drawing.dxf".data out).1.head?
            = some (Action.subproc ["inkscape".data, "-l".data,
                resolve_svg_path "d/drawing.dxf".data out,
                "d/drawing.dxf".data]))) :=
  ⟨by decide, claim_C2 (fun _ => none) "d/drawing.dxf".data (by decide)⟩

/-- C10: when the shared output path has a non-empty extension, every input
resolves to that output path verbatim (so any two batch entries resolve to
the identical output file), and a successfully processed `.dxf` entry
writes its converted document to that same path. -/
theorem claim_C10 (out : Str) (h : get_file_ext out ≠ []) :
    (∀ d1 d2 : Str, resolve_svg_path d1 (some out) = out
      ∧ resolve_svg_path d1 (some out) = resolve_svg_path d2 (some out))
    ∧ (∀ fs d doc, get_file_ext d = ".dxf".data → fs out = some doc →
        Action.writeFile out (styleStrokesDoc defaultColor defaultWidth doc)
          ∈ (preprocess fs d (some out)).1
        ∧ (preprocess fs d (some out)).2 = none) := by
  have hres : ∀ d : Str, resolve_svg_path d (some out) = out := by
    intro d
    unfold resolve_svg_path
    dsimp only
    rw [if_neg h]
  constructor
  · intro d1 d2
    rw [hres d1, hres d2]
    exact ⟨rfl, rfl⟩
  · intro fs d doc hd hfs
    unfold preprocess
    dsimp only
    rw [if_neg (by simp [hd])]
    unfold style_strokes
    rw [hres d, hfs]
    constructor
    · simp [convert]
    · rfl

/-- C10 witness: with shared output `o.svg`, the entries `a.dxf` and
`b.dxf` resolve to the same path, which is overwritten. -/
theorem claim_C10_witness :
    get_file_ext "o.svg".data ≠ []
    ∧ ((∀ d1 d2 : Str, resolve_svg_path d1 (some "o.svg".data) = "o.svg".data
        ∧ resolve_svg_path d1 (some "o.svg".data)
            = resolve_svg_path d2 (some "o.svg".data))
      ∧ (∀ fs d doc, get_file_ext d = ".dxf".data →
          fs "o.svg".data = some doc →
          Action.writeFile "o.svg".data
              (styleStrokesDoc defaultColor defaultWidth doc)
            ∈ (preprocess fs d (some "o.svg".data)).1
          ∧ (preprocess fs d (some "o.svg".data)).2 = none)) :=
  ⟨by decide, claim_C10 "o.svg".data (by decide)⟩

/-! ## Helper lemmas about the style rewriter -/

theorem matchesBlack_iff {t : Str} {a : List (Str × Str)} :
    matchesBlack t a = true
      ↔ (t = svgPathTag ∧ a.lookup styleKey = some blackStyle) := by
  simp [matchesBlack]

theorem matchesBlack_false {t : Str} {a : List (Str × Str)}
    (h : ¬ (t = svgPathTag ∧ a.lookup styleKey = some blackStyle)) :
    matchesBlack t a = false := by
  cases hb : matchesBlack t a
  · rfl
  · exact absurd (matchesBlack_iff.mp hb) h

theorem lookup_setAttr (k v : Str) :
    ∀ a, (setAttr k v a).lookup k = some v
  | [] => by simp [setAttr, List.lookup]
  | (k', v') :: rest => by
    by_cases hk : k' = k
    · simp [setAttr, hk, List.lookup]
    · simp only [setAttr, if_neg hk, List.lookup]
      have hbe : (k == k') = false :=
        beq_eq_false_iff_ne.mpr (fun he => hk he.symm)
      rw [hbe]
      exact lookup_setAttr k v rest

theorem newStyle_ne_blackStyle (c w : Str) : newStyle c w ≠ blackStyle := by
  intro h
  have h1 : (newStyle c w).head? = some 'f' := rfl
  rw [h] at h1
  exact absurd h1 (by decide)

mutual
theorem elemsData_restyleAll (c w : Str) :
    ∀ e, elemsData (restyleAll c w e)
      = (elemsData e).map (fun ta => (ta.1, restyleNode c w ta.1 ta.2))
  | .mk t a cs => by
    simp only [restyleAll, elemsData, List.map_cons,
      elemsDataList_restyleList c w cs]

theorem elemsDataList_restyleList (c w : Str) :
    ∀ es, elemsDataList (restyleList c w es)
      = (elemsDataList es).map (fun ta => (ta.1, restyleNode c w ta.1 ta.2))
  | [] => by simp only [restyleList, elemsDataList, List.map_nil]
  | e :: es => by
    simp only [restyleList, elemsDataList, List.map_append,
      elemsData_restyleAll c w e, elemsDataList_restyleList c w es]
end

mutual
theorem restyleAll_id (c w : Str) :
    ∀ e, (∀ ta ∈ elemsData e, matchesBlack ta.1 ta.2 = false) →
      restyleAll c w e = e
  | .mk t a cs => fun h => by
    have hroot : matchesBlack t a = false := h (t, a) (by simp [elemsData])
    simp only [restyleAll, restyleNode, hroot, Bool.false_eq_true, if_false,
      restyleList_id c w cs (fun ta hta => h ta (by simp [elemsData, hta]))]

theorem restyleList_id (c w : Str) :
    ∀ es, (∀ ta ∈ elemsDataList es, matchesBlack ta.1 ta.2 = false) →
      restyleList c w es = es
  | [] => fun _ => rfl
  | e :: es => fun h => by
    simp only [restyleList,
      restyleAll_id c w e (fun ta hta => h ta (by simp [elemsDataList, hta])),
      restyleList_id c w es (fun ta hta => h ta (by simp [elemsDataList, hta]))]
end

theorem restyleNode_pair (c w : Str) (ta : Str × List (Str × Str)) :
    (ta.1, restyleNode c w ta.1 ta.2)
      = (if ta.1 = svgPathTag ∧ ta.2.lookup styleKey = some blackStyle
         then (ta.1, setAttr styleKey (newStyle c w) ta.2) else ta) := by
  rcases ta with ⟨t, a⟩
  dsimp only
  by_cases hm : t = svgPathTag ∧ a.lookup styleKey = some blackStyle
  · rw [if_pos hm]
    simp only [restyleNode]
    rw [if_pos (matchesBlack_iff.mpr hm)]
  · rw [if_neg hm]
    simp only [restyleNode]
    rw [if_neg (by simp [matchesBlack_false hm])]

/-- The no-match identity at document level, shared by several claims:
when no element of the tree matches the black-style signature, the rewrite
leaves the document exactly as it was. -/
theorem styleStrokesDoc_id (c w : Str) (root : Element)
    (h : ∀ ta ∈ elemsData root,
      ¬ (ta.1 = svgPathTag ∧ ta.2.lookup styleKey = some blackStyle)) :
    styleStrokesDoc c w root = root := by
  cases root with
  | mk t a cs =>
    simp only [styleStrokesDoc]
    rw [restyleList_id c w cs
      (fun ta hta => matchesBlack_false (h ta (by simp [elemsData, hta])))]

/-- After a rewrite of a document whose root is an `svg` element, no element
matches the black-style signature any longer (shared helper). -/
theorem noMatch_after_restyle (c w : Str) (root : Element)
    (h : root.tag = svgSvgTag) :
    ∀ ta ∈ elemsData (styleStrokesDoc c w root),
      ¬ (ta.1 = svgPathTag ∧ ta.2.lookup styleKey = some blackStyle) := by
  cases root with
  | mk t a cs =>
    have ht : t = svgSvgTag := h
    intro ta hta
    simp only [styleStrokesDoc, elemsData, List.mem_cons,
      elemsDataList_restyleList c w cs, List.mem_map] at hta
    rcases hta with rfl | ⟨tb, htb, rfl⟩
    · intro hcon
      dsimp only at hcon
      rw [ht] at hcon
      exact absurd hcon.1 (by decide)
    · by_cases hm : matchesBlack tb.1 tb.2 = true
      · intro hcon
        have hlk : (restyleNode c w tb.1 tb.2).lookup styleKey
            = some (newStyle c w) := by
          simp only [restyleNode]
          rw [if_pos hm]
          exact lookup_setAttr styleKey (newStyle c w) tb.2
        have h2 := hcon.2
        dsimp only at h2
        rw [hlk] at h2
        exact newStyle_ne_blackStyle c w (Option.some.inj h2)
      · have heq : restyleNode c w tb.1 tb.2 = tb.2 := by
          simp only [restyleNode]
          rw [if_neg hm]
        dsimp only
        rw [heq]
        intro hcon
        exact hm (matchesBlack_iff.mpr hcon)

/-! ## Claims about the style rewriter -/

/-- C1: on an SVG document, `style_strokes` rewrites, element by element,
exactly the SVG-namespace `path` elements whose `style` equals
`stroke:#000000;fill:none`, setting their `style` to the formatted
replacement, and leaves every other element's data unchanged. -/
theorem claim_C1 (c w : Str) (root : Element) (h : root.tag = svgSvgTag) :
    elemsData (styleStrokesDoc c w root)
      = (elemsData root).map (fun ta =>
          if ta.1 = svgPathTag ∧ ta.2.lookup styleKey = some blackStyle
          then (ta.1, setAttr styleKey (newStyle c w) ta.2) else ta) := by
  cases root with
  | mk t a cs =>
    have ht : t = svgSvgTag := h
    subst ht
    have hfun : (fun ta : Str × List (Str × Str) =>
        (ta.1, restyleNode c w ta.1 ta.2))
        = (fun ta =>
            if ta.1 = svgPathTag ∧ ta.2.lookup styleKey = some blackStyle
            then (ta.1, setAttr styleKey (newStyle c w) ta.2) else ta) :=
      funext (restyleNode_pair c w)
    simp only [styleStrokesDoc, elemsData, List.map_cons,
      elemsDataList_restyleList c w cs, hfun]
    have hneg : ¬ (svgSvgTag = svgPathTag
        ∧ List.lookup styleKey a = some blackStyle) :=
      fun hc => absurd hc.1 (by decide)
    rw [if_neg hneg]

/-- C1 witness: on the document `sampleDoc`, whose root is an `svg` element, the black
path is rewritten and the red path is untouched. -/
theorem claim_C1_witness :
    sampleDoc.tag = svgSvgTag
    ∧ elemsData (styleStrokesDoc defaultColor defaultWidth sampleDoc)
        = (elemsData sampleDoc).map (fun ta =>
            if ta.1 = svgPathTag ∧ ta.2.lookup styleKey = some blackStyle
            then (ta.1, setAttr styleKey
                (newStyle defaultColor defaultWidth) ta.2)
            else ta) :=
  ⟨rfl, claim_C1 defaultColor defaultWidth sampleDoc rfl⟩

/-- C5: when no path element of the document carries the black-style
signature, the rewrite is the identity on the document; moreover any SVG
document already processed with the default arguments satisfies that
condition, so a second run changes nothing. -/
theorem claim_C5 (c w : Str) (root : Element) :
    ((∀ ta ∈ elemsData root,
        ¬ (ta.1 = svgPathTag ∧ ta.2.lookup styleKey = some blackStyle)) →
      styleStrokesDoc c w root = root)
    ∧ (root.tag = svgSvgTag →
        ∀ ta ∈ elemsData (styleStrokesDoc defaultColor defaultWidth root),
          ¬ (ta.1 = svgPathTag ∧ ta.2.lookup styleKey = some blackStyle)) :=
  ⟨styleStrokesDoc_id c w root,
   noMatch_after_restyle defaultColor defaultWidth root⟩

/-- C5 witness: a document whose only path is red is left unchanged. -/
theorem claim_C5_witness :
    (∀ ta ∈ elemsData (Element.mk svgSvgTag []
        [Element.mk svgPathTag
          [(styleKey, "stroke:#ff0000;fill:none".data)] []]),
      ¬ (ta.1 = svgPathTag ∧ ta.2.lookup styleKey = some blackStyle))
    ∧ styleStrokesDoc defaultColor defaultWidth
        (Element.mk svgSvgTag []
          [Element.mk svgPathTag
            [(styleKey, "stroke:#ff0000;fill:none".data)] []])
        = Element.mk svgSvgTag []
            [Element.mk svgPathTag
              [(styleKey, "stroke:#ff0000;fill:none".data)] []] :=
  ⟨by decide,
   (claim_C5 defaultColor defaultWidth
     (Element.mk svgSvgTag []
       [Element.mk svgPathTag
         [(styleKey, "stroke:#ff0000;fill:none".data)] []])).1 (by decide)⟩

/-- C6 counterexample: the function `style_strokes` performs no write action at all: on a
concrete well-formed file it returns the modified tree with an empty action
trace, so it does not itself serialize and overwrite `svg_path` before
returning. -/
theorem claim_C6_counterexample :
    (style_strokes (fun _ => some sampleDoc) "d.svg".data
        defaultColor defaultWidth).1 = []
    ∧ (style_strokes (fun _ => some sampleDoc) "d.svg".data
        defaultColor defaultWidth).2
      = .ok (styleStrokesDoc defaultColor defaultWidth sampleDoc) :=
  ⟨rfl, rfl⟩

/-- C6 (amended): the function `style_strokes` parses the file at `svg_path` and returns
the modified document, performing no write itself; finding zero matching
elements is not an error (the document comes back unchanged); it is the
caller `preprocess` that writes the document to the resolved path and
completes without error. -/
theorem claim_C6 (fs : Str → Option Element) (svg c w : Str) (doc : Element)
    (hfs : fs svg = some doc) :
    style_strokes fs svg c w = ([], .ok (styleStrokesDoc c w doc))
    ∧ ((∀ ta ∈ elemsData doc,
          ¬ (ta.1 = svgPathTag ∧ ta.2.lookup styleKey = some blackStyle)) →
        styleStrokesDoc c w doc = doc)
    ∧ (∀ dxf out, get_file_ext dxf = ".dxf".data →
        resolve_svg_path dxf out = svg →
        Action.writeFile svg (styleStrokesDoc defaultColor defaultWidth doc)
          ∈ (preprocess fs dxf out).1
        ∧ (preprocess fs dxf out).2 = none) := by
  refine ⟨?_, styleStrokesDoc_id c w doc, ?_⟩
  · unfold style_strokes
    rw [hfs]
  · intro dxf out hd hsvg
    unfold preprocess
    dsimp only
    rw [if_neg (by simp [hd])]
    unfold style_strokes
    rw [hsvg, hfs]
    exact ⟨by simp [convert], rfl⟩

/-- C6 witness: with the file at `a.svg` parsing to `sampleDoc`, the
amended statement holds concretely. -/
theorem claim_C6_witness :
    ((fun _ : Str => some sampleDoc) "a.svg".data = some sampleDoc)
    ∧ (style_strokes (fun _ => some sampleDoc) "a.svg".data
          defaultColor defaultWidth
        = ([], .ok (styleStrokesDoc defaultColor defaultWidth sampleDoc))
      ∧ ((∀ ta ∈ elemsData sampleDoc,
            ¬ (ta.1 = svgPathTag ∧ ta.2.lookup styleKey = some blackStyle)) →
          styleStrokesDoc defaultColor defaultWidth sampleDoc = sampleDoc)
      ∧ (∀ dxf out, get_file_ext dxf = ".dxf".data →
          resolve_svg_path dxf out = "a.svg".data →
          Action.writeFile "a.svg".data
              (styleStrokesDoc defaultColor defaultWidth sampleDoc)
            ∈ (preprocess (fun _ => some sampleDoc) dxf out).1
          ∧ (preprocess (fun _ => some sampleDoc) dxf out).2 = none)) :=
  ⟨rfl, claim_C6 (fun _ => some sampleDoc) "a.svg".data
    defaultColor defaultWidth sampleDoc rfl⟩

/-! ## Claims about the batch driver -/

theorem batchLoop_benign (fs : Str → Option Element) (input : Str)
    (out : Option Str) :
    ∀ listing, (∀ n ∈ listing,
        benignResult (preprocess fs (joinPath input n) out)) →
      batchLoop fs input out listing
        = (batchTrace fs input out listing, none)
  | [] => fun _ => rfl
  | n :: rest => fun h => by
    have htail := batchLoop_benign fs input out rest
      (fun m hm => h m (List.mem_cons_of_mem n hm))
    have hb := h n (List.mem_cons_self n rest)
    unfold benignResult at hb
    cases hp : preprocess fs (joinPath input n) out with
    | mk a e =>
      rw [hp] at hb
      dsimp only at hb
      rcases hb with rfl | ⟨m, rfl⟩
      · simp only [batchLoop, hp, batchTrace, entryTrace, htail,
          List.append_assoc]
      · simp only [batchLoop, hp, batchTrace, entryTrace, htail,
          List.append_assoc]

theorem batchLoop_abort (fs : Str → Option Element) (input : Str)
    (out : Option Str) :
    ∀ pre n post err,
      (∀ m ∈ pre, benignResult (preprocess fs (joinPath input m) out)) →
      (preprocess fs (joinPath input n) out).2 = some err →
      err.isFileType = false →
      batchLoop fs input out (pre ++ n :: post)
        = (batchTrace fs input out pre
            ++ (preprocess fs (joinPath input n) out).1, some err)
  | [], n, post, err => fun _ he hft => by
    cases hp : preprocess fs (joinPath input n) out with
    | mk a e =>
      rw [hp] at he
      dsimp only at he
      subst he
      cases err with
      | fileType m => simp [Err.isFileType] at hft
      | parse p =>
        simp [batchLoop, hp, batchTrace]
  | m0 :: pre, n, post, err => fun hpre he hft => by
    have hb := hpre m0 (List.mem_cons_self m0 pre)
    have htail := batchLoop_abort fs input out pre n post err
      (fun m hm => hpre m (List.mem_cons_of_mem m0 hm)) he hft
    cases hp : preprocess fs (joinPath input m0) out with
    | mk a e =>
      unfold benignResult at hb
      rw [hp] at hb
      dsimp only at hb
      rcases hb with rfl | ⟨m, rfl⟩
      · simp [batchLoop, hp, htail, batchTrace, entryTrace,
          List.append_assoc]
      · simp [batchLoop, hp, htail, batchTrace, entryTrace,
          List.append_assoc]

/-- C4: on a directory input (empty extension), `main` runs `preprocess` on
each listed entry joined to the directory, with the shared output path; a
batch whose entries all succeed or raise `FileTypeError` completes with the
per-entry traces concatenated (skipped entries contribute a notice), while
the first entry raising any other error (e.g. a parse error) terminates the
batch at that point: its error propagates and no later entry contributes
anything. -/
theorem claim_C4 (fs : Str → Option Element) (input : Str) (out : Option Str)
    (h : get_file_ext input = []) :
    (∀ listing, (∀ n ∈ listing,
        benignResult (preprocess fs (joinPath input n) out)) →
      main fs listing input out = (batchTrace fs input out listing, none))
    ∧ (∀ pre n post err,
        (∀ m ∈ pre, benignResult (preprocess fs (joinPath input m) out)) →
        (preprocess fs (joinPath input n) out).2 = some err →
        err.isFileType = false →
        main fs (pre ++ n :: post) input out
          = (batchTrace fs input out pre
              ++ (preprocess fs (joinPath input n) out).1, some err)) := by
  have hmain : ∀ listing, main fs listing input out
      = batchLoop fs input out listing := by
    intro listing
    unfold main
    rw [if_neg (by simp [h])]
  exact ⟨fun listing hben =>
      (hmain listing).trans (batchLoop_benign fs input out listing hben),
    fun pre n post err hpre he hft =>
      (hmain _).trans
        (batchLoop_abort fs input out pre n post err hpre he hft)⟩

/-- C4 witness: a directory `d` with entries `a.dxf` (processed) and
`b.txt` (skipped with a notice) completes without error. -/
theorem claim_C4_witness :
    get_file_ext "d".data = []
    ∧ main (fun _ => some sampleDoc) ["a.dxf".data, "b.txt".data]
        "d".data none
      = (batchTrace (fun _ => some sampleDoc) "d".data none
          ["a.dxf".data, "b.txt".data], none) :=
  ⟨by decide,
   (claim_C4 (fun _ => some sampleDoc) "d".data none (by decide)).1
     ["a.dxf".data, "b.txt".data]
     (by
       intro n hn
       rcases List.mem_cons.mp hn with rfl | hn2
       · exact Or.inl rfl
       · rcases List.mem_cons.mp hn2 with rfl | hn3
         · exact Or.inr ⟨_, rfl⟩
         · exact absurd hn3 (List.not_mem_nil n))⟩

end Preprocess
